import Mathlib

/-!
Verification of the resume-os core: shallow embedding of the skill-gap
analysis engine (src/utils/keywords.js), the career-memory aggregator
(memory module packed in src/utils/resume-parser.js), the token-optimised
prompt builder, the Gemini error classifier and the AI-response JSON
normalizer (src/utils/ai.js).  JavaScript numbers on these code paths are
small non-negative counts, modelled by Nat (with Int where JS subtraction
may go negative); `Math.round` on a non-negative rational m/n is modelled
exactly as the half-up integer (2*m + n) / (2*n).
-/

namespace ResumeOS

/-! ## Skill-gap engine (src/utils/keywords.js) -/

/-- The HARD_SKILLS list, verbatim from keywords.js. -/
def HARD_SKILLS : List String :=
  [ "Python","Java","JavaScript","TypeScript","C","C++","C#","Go","Rust",
    "Kotlin","Swift","PHP","Ruby","Scala","MATLAB","R","Dart",
    "HTML","CSS","React","Next.js","Vue.js","Angular","Node.js",
    "Express.js","REST APIs","GraphQL","Web Applications",
    "Frontend Development","Backend Development","Full Stack Development",
    "Responsive Design","Web Performance","SEO Optimization",
    "Object Oriented Programming",
    "Data Structures",
    "Algorithms",
    "System Design",
    "Design Patterns",
    "Software Architecture",
    "Microservices",
    "Monolithic Architecture",
    "API Development",
    "Application Development",
    "Unit Testing",
    "Integration Testing",
    "Test Automation",
    "Debugging",
    "Code Reviews",
    "Peer Reviews",
    "Version Control",
    "Docker","Kubernetes","CI/CD","Jenkins","GitHub Actions",
    "Terraform","Infrastructure as Code",
    "Linux","Shell Scripting",
    "Cloud Infrastructure",
    "Site Reliability Engineering",
    "Monitoring","Logging","Observability",
    "AWS","Google Cloud Platform","Microsoft Azure",
    "Serverless Architecture","Cloud Deployment",
    "Load Balancing","Auto Scaling",
    "SQL","PostgreSQL","MySQL","MongoDB","Redis",
    "Database Optimization","Data Modeling",
    "ETL Pipelines","Data Warehousing",
    "Apache Spark","Kafka","Airflow",
    "Big Data","Data Pipelines",
    "Machine Learning",
    "Deep Learning",
    "Natural Language Processing",
    "Computer Vision",
    "TensorFlow",
    "PyTorch",
    "Scikit-learn",
    "Feature Engineering",
    "Model Evaluation",
    "MLOps",
    "LLMs",
    "Generative AI",
    "RAG Systems",
    "Prompt Engineering",
    "Authentication",
    "Authorization",
    "OAuth",
    "JWT",
    "Cybersecurity",
    "Secure Coding",
    "Android Development",
    "iOS Development",
    "React Native",
    "Flutter",
    "Mobile Applications",
    "Distributed Systems",
    "High Availability",
    "Scalability",
    "Performance Optimization",
    "Caching",
    "Event Driven Architecture",
    "Agile",
    "Scrum",
    "Agile Development",
    "Proof of Concept",
    "Technical Documentation" ]

/-- The SOFT_SKILLS list, verbatim from keywords.js. -/
def SOFT_SKILLS : List String :=
  [ "Communication",
    "Collaboration",
    "Teamwork",
    "Problem Solving",
    "Analytical Thinking",
    "Critical Thinking",
    "Leadership",
    "Ownership",
    "Mentorship",
    "Innovation",
    "Adaptability",
    "Time Management",
    "Organization",
    "Creativity",
    "Decision Making",
    "Cross Functional Collaboration",
    "Stakeholder Management",
    "Planning",
    "Motivation",
    "Initiative",
    "Attention to Detail",
    "Product Thinking",
    "Customer Focus",
    "Continuous Learning" ]

/-- `String.prototype.toLowerCase` (ASCII range; the vocabulary and every
concrete input here are ASCII). -/
def toLowerStr (s : String) : String := String.mk (s.data.map Char.toLower)

/-- `String.prototype.split(" ")`: split on every single space, keeping
empty pieces. -/
def splitSpaceAux : List Char → List Char → List String
  | cur, [] => [String.mk cur.reverse]
  | cur, c :: rest =>
    if c == ' ' then String.mk cur.reverse :: splitSpaceAux [] rest
    else splitSpaceAux (c :: cur) rest

/-- `synonym.split(" ")` from `detectSkills`. -/
def splitOnSpace (s : String) : List String := splitSpaceAux [] s.data

/-- `s.slice(0, n)` (also JS `take`-style truncation). -/
def takeStr (s : String) (n : Nat) : String := String.mk (s.data.take n)

/-- `buildGraph(list)`: each skill maps to the one-element synonym list
holding its lowercased name.  A JS object with unique keys in insertion
order is modelled as an association list. -/
def buildGraph (list : List String) : List (String × List String) :=
  list.map (fun skill => (skill, [toLowerStr skill]))

/-- The three skill-graph categories (keys of the SKILL_GRAPH object). -/
inductive Category where
  | hard
  | soft
  | other
deriving DecidableEq

/-- SKILL_GRAPH from keywords.js: hard/soft built from the lists, plus the
hand-written "other" category. -/
def SKILL_GRAPH : Category → List (String × List String)
  | .hard => buildGraph HARD_SKILLS
  | .soft => buildGraph SOFT_SKILLS
  | .other =>
    [ ("Teams", ["team","teams"]),
      ("Products", ["product","products"]),
      ("Infrastructure", ["infrastructure"]),
      ("Operations", ["operations","ops"]),
      ("People", ["people","users"]) ]

/-- STOPWORDS set from keywords.js. -/
def STOPWORDS : List String :=
  [ "the","a","an","and","or","to","of","in","on","for",
    "with","our","your","you","we","is","are","be","this",
    "that","will","can","should","may" ]

/-- JavaScript regex `\s` whitespace class (ASCII members; the unicode
space characters never occur in the concrete inputs considered here). -/
def isJsWs (c : Char) : Bool :=
  c == ' ' || c == '\t' || c == '\n' || c == '\r' ||
  c == Char.ofNat 11 || c == Char.ofNat 12 || c == Char.ofNat 160

/-- JavaScript regex `\w` word-character class: ASCII letters, digits and
underscore. -/
def isWordChar (c : Char) : Bool :=
  c.isAlpha || c.isDigit || c == '_'

/-- Accumulator for `splitWsRuns`: `cur` holds the current run reversed. -/
def splitWsAux : List Char → List Char → List String
  | cur, [] => if cur.isEmpty then [] else [String.mk cur.reverse]
  | cur, c :: rest =>
    if isJsWs c then
      if cur.isEmpty then splitWsAux [] rest
      else String.mk cur.reverse :: splitWsAux [] rest
    else splitWsAux (c :: cur) rest

/-- Split a character list into its maximal runs of non-whitespace
characters (the nonempty results of JS `.split(/\s+/)`; the possible
leading empty string is dropped by the `filter(w => w ...)` in
`normalize`). -/
def splitWsRuns (l : List Char) : List String := splitWsAux [] l

/-- `normalize(text)` from keywords.js: lowercase, replace every character
that is neither a word character nor whitespace with a space, split on
whitespace runs, drop empties and stopwords. -/
def normalize (text : String) : List String :=
  let cleaned := (toLowerStr text).data.map (fun c => if isWordChar c || isJsWs c then c else ' ')
  (splitWsRuns cleaned).filter (fun w => !STOPWORDS.contains w)

/-- `detectSkills(tokens, vocab)` from keywords.js: a skill is detected
when at least one of its synonym phrases has every space-separated word
present in the token set. -/
def detectSkills (tokens : List String) (vocab : List (String × List String)) : List String :=
  (vocab.filter (fun entry =>
    entry.2.any (fun synonym =>
      (splitOnSpace synonym).all (fun part => tokens.contains part)))).map Prod.fst

/-- `Math.round` of the non-negative rational num/den (den > 0): half-up
integer rounding. -/
def jsRound (num den : Nat) : Nat := (2 * num + den) / (2 * den)

/-- `calcScore(matched, total)` from keywords.js:
`Math.round((matched / total) * 100)`, and 0 when total is 0. -/
def calcScore (matched total : Nat) : Nat :=
  if total = 0 then 0 else jsRound (100 * matched) total

/-- `impactLabel(category)` from keywords.js. -/
def impactLabel : Category → String
  | .hard => "High Impact"
  | .soft => "Medium Impact"
  | .other => "Low Impact"

/-- The per-category record built inside `analyzeKeywords` (matched,
missing, score). -/
structure CategoryResult where
  matched : List String
  missing : List String
  score : Nat
deriving DecidableEq

/-- The per-category computation inside `analyzeKeywords`: detect the
job-description and resume skill sets, intersect/substract, score. -/
def catResults (jobDescription resumeText : String) (category : Category) : CategoryResult :=
  let jdSkills := detectSkills (normalize jobDescription) (SKILL_GRAPH category)
  let resumeSkills := detectSkills (normalize resumeText) (SKILL_GRAPH category)
  { matched := jdSkills.filter (fun s => resumeSkills.contains s),
    missing := jdSkills.filter (fun s => !resumeSkills.contains s),
    score := calcScore (jdSkills.filter (fun s => resumeSkills.contains s)).length jdSkills.length }

/-- One entry of the formatted skill list: name plus matched/missing
status tag. -/
structure SkillTag where
  name : String
  status : String
deriving DecidableEq

/-- Formatted category bundle returned by `formatCategory`. -/
structure FormattedCategory where
  impact : String
  title : String
  score : Nat
  total : Nat
  missingCount : Nat
  skills : List SkillTag
deriving DecidableEq

/-- Stable insertion step used to model the (stable) JS array sort by
name.  `localeCompare` is modelled as code-point order; no claim depends
on the exact collation. -/
def insertByName (x : SkillTag) : List SkillTag → List SkillTag
  | [] => [x]
  | y :: t => if x.name < y.name then x :: y :: t else y :: insertByName x t

/-- Stable sort of the skill tags by name. -/
def sortByName (l : List SkillTag) : List SkillTag :=
  l.foldl (fun acc x => insertByName x acc) []

/-- `formatCategory(category, data)` from keywords.js. -/
def formatCategory (category : Category) (data : CategoryResult) : FormattedCategory :=
  let skills := data.matched.map (fun s => SkillTag.mk s "matched")
    ++ data.missing.map (fun s => SkillTag.mk s "missing")
  { impact := impactLabel category,
    title := match category with
      | .hard => "Hard Skills"
      | .soft => "Soft Skills"
      | .other => "Other Skills",
    score := data.score,
    total := skills.length,
    missingCount := data.missing.length,
    skills := sortByName skills }

/-- Result bundle of `analyzeKeywords`. -/
structure AnalyzeResult where
  hardSkills : FormattedCategory
  softSkills : FormattedCategory
  otherSkills : FormattedCategory
deriving DecidableEq

/-- `analyzeKeywords(jobDescription, resumeText)` from keywords.js. -/
def analyzeKeywords (jobDescription resumeText : String) : AnalyzeResult :=
  { hardSkills := formatCategory .hard (catResults jobDescription resumeText .hard),
    softSkills := formatCategory .soft (catResults jobDescription resumeText .soft),
    otherSkills := formatCategory .other (catResults jobDescription resumeText .other) }

/-! ## Career memory (memory module packed in src/utils/resume-parser.js) -/

/-- The `job` sub-record of a SessionRecord. -/
structure JobRecord where
  title : String
  company : String
  source : String
  url : String
deriving DecidableEq

/-- A stored SessionRecord. -/
structure SessionRecord where
  id : Int
  date : String
  job : JobRecord
  targetRole : String
  keywordsUsed : List String
  bulletVerbs : List String
  avgBulletLen : Nat
  status : String
deriving DecidableEq

/-- The stored AggregateRecord.  `targetRoles` is a JS object used as a
counter map, modelled as an insertion-ordered association list. -/
structure AggregateRecord where
  totalSessions : Nat
  targetRoles : List (String × Nat)
  topKeywords : List String
  topBulletVerbs : List String
  avgBulletLen : Nat
  preferenceSummary : Option String
  summaryBuiltAt : Nat
deriving DecidableEq

/-- The memory record stored under the `resumeos_memory` key. -/
structure Memory where
  sessions : List SessionRecord
  aggregate : AggregateRecord
deriving DecidableEq

/-- `SUMMARY_REBUILD_EVERY` constant. -/
def SUMMARY_REBUILD_EVERY : Nat := 5

/-- `defaultMemory()` from the memory module. -/
def defaultMemory : Memory :=
  { sessions := [],
    aggregate :=
      { totalSessions := 0, targetRoles := [], topKeywords := [],
        topBulletVerbs := [], avgBulletLen := 0,
        preferenceSummary := none, summaryBuiltAt := 0 } }

/-- `shouldRebuildSummary(aggregate)`: true iff at least
SUMMARY_REBUILD_EVERY sessions happened since the last rebuild and there
are at least 2 sessions.  The subtraction is JS numeric subtraction,
modelled on Int (the `|| 0` on `summaryBuiltAt` is the identity on the
Nat-valued field). -/
def shouldRebuildSummary (aggregate : AggregateRecord) : Bool :=
  let sessionsSinceLastBuild : Int :=
    (aggregate.totalSessions : Int) - (aggregate.summaryBuiltAt : Int)
  decide (sessionsSinceLastBuild ≥ (SUMMARY_REBUILD_EVERY : Int)) &&
    decide (aggregate.totalSessions ≥ 2)

/-- Increment-or-append on a counter association list: models
`m[k] = (m[k] || 0) + 1` on a JS object (string keys in insertion
order). -/
def bump : List (String × Nat) → String → List (String × Nat)
  | [], k => [(k, 1)]
  | (k', n) :: t, k => if k' = k then (k', n + 1) :: t else (k', n) :: bump t k

/-- Stable insert for descending-by-count order (models the stable JS
`sort((a, b) => b[1] - a[1])`: ties keep insertion order). -/
def insertCountDesc (x : String × Nat) : List (String × Nat) → List (String × Nat)
  | [] => [x]
  | y :: t => if y.2 < x.2 then x :: y :: t else y :: insertCountDesc x t

/-- Stable sort of counter entries by descending count. -/
def sortCountDesc (l : List (String × Nat)) : List (String × Nat) :=
  l.foldl (fun acc x => insertCountDesc x acc) []

/-- `rebuildAggregate(sessions, prevAggregate)` from the memory module:
every field recomputed from the session list, except `preferenceSummary`
and `summaryBuiltAt` copied from the previous aggregate. -/
def rebuildAggregate (sessions : List SessionRecord) (prevAggregate : AggregateRecord) :
    AggregateRecord :=
  let targetRoles := sessions.foldl
    (fun m s => if s.targetRole ≠ "" then bump m s.targetRole else m) []
  let keywordFreq := sessions.foldl
    (fun m s => s.keywordsUsed.foldl bump m) []
  let topKeywords := ((sortCountDesc keywordFreq).take 20).map Prod.fst
  let verbFreq := sessions.foldl
    (fun m s => s.bulletVerbs.foldl bump m) []
  let topBulletVerbs := ((sortCountDesc verbFreq).take 10).map Prod.fst
  let avgBulletLen :=
    if sessions.length > 0 then
      jsRound (sessions.foldl
        (fun sum s => sum + (if s.avgBulletLen = 0 then 18 else s.avgBulletLen)) 0)
        sessions.length
    else 18
  { totalSessions := sessions.length,
    targetRoles := targetRoles,
    topKeywords := topKeywords,
    topBulletVerbs := topBulletVerbs,
    avgBulletLen := avgBulletLen,
    preferenceSummary := prevAggregate.preferenceSummary,
    summaryBuiltAt := prevAggregate.summaryBuiltAt }

/-- Replace the status of the first session whose id matches (models the
in-place `session.status = status` after `sessions.find`). -/
def setStatusFirst (sessionId : Int) (status : String) :
    List SessionRecord → List SessionRecord
  | [] => []
  | s :: rest =>
    if s.id = sessionId then { s with status := status } :: rest
    else s :: setStatusFirst sessionId status rest

/-- `updateSessionStatus(sessionId, status)` as a pure transform on the
stored memory; the boolean records whether a write was performed (the JS
function only writes when `sessions.find` succeeds). -/
def updateSessionStatus (mem : Memory) (sessionId : Int) (status : String) :
    Memory × Bool :=
  if mem.sessions.any (fun s => s.id == sessionId) then
    ({ mem with sessions := setStatusFirst sessionId status mem.sessions }, true)
  else (mem, false)

/-- `updatePreferenceSummary(summary)` as a pure transform on the stored
memory. -/
def updatePreferenceSummary (mem : Memory) (summary : String) : Memory :=
  { mem with aggregate :=
    { mem.aggregate with
      preferenceSummary := some summary,
      summaryBuiltAt := mem.aggregate.totalSessions } }

/-! ## JSON values and the response schema normalizer (src/utils/ai.js) -/

/-- JSON values as produced by `JSON.parse`.  A number is kept exactly in
decimal scientific form: `num m e` denotes the value m * 10^e. -/
inductive Json where
  | null : Json
  | bool : Bool → Json
  | num : Int → Int → Json
  | str : String → Json
  | arr : List Json → Json
  | obj : List (String × Json) → Json

/-- Property lookup on an object's field list; a duplicated key is won by
the last occurrence, as in `JSON.parse`. -/
def getLast : List (String × Json) → String → Option Json
  | [], _ => none
  | (k, v) :: t, key =>
    match getLast t key with
    | some r => some r
    | none => if k = key then some v else none

/-- JS property access `v.k` on a non-null value: fields of objects;
`undefined` (modelled as `none`) on every other value for the schema keys
used here. -/
def getF (v : Json) (k : String) : Option Json :=
  match v with
  | .obj fields => getLast fields k
  | _ => none

/-- JS truthiness of a JSON value. -/
def truthy : Json → Bool
  | .null => false
  | .bool b => b
  | .num m _ => m != 0
  | .str s => s != ""
  | .arr _ => true
  | .obj _ => true

/-- Is a JSON value `null`? (property access and the string methods used
by the normalizer and the aggregator raise exactly on `null`). -/
def isNullJson : Json → Bool
  | .null => true
  | _ => false

/-- JS truthiness of a possibly-`undefined` value. -/
def truthyO : Option Json → Bool
  | none => false
  | some v => truthy v

/-- JS `a || b` over possibly-`undefined` values. -/
def jsOr (a b : Option Json) : Option Json :=
  if truthyO a then a else b

/-- The short-key / long-key / default chain `v.k1 || v.k2 || d` used for
every schema field (`v` is known non-null at each call site). -/
def pick (v : Json) (k1 k2 : String) (d : Json) : Json :=
  (jsOr (getF v k1) (jsOr (getF v k2) (some d))).getD d

/-- `pick` with the empty-string default used for the scalar fields. -/
def pickS (v : Json) (k1 k2 : String) : Json := pick v k1 k2 (.str "")

/-- A normalized bullet.  The JS code copies whatever value sits under the
text key, so `text` stays a JSON value. -/
structure Bullet where
  text : Json
  authentic : Bool

/-- A normalized experience entry. -/
structure Experience where
  company : Json
  title : Json
  dates : Json
  bullets : List Bullet

/-- A normalized education entry. -/
structure Education where
  institution : Json
  degree : Json
  dates : Json

/-- The normalized ResumeRecord produced by `validateResumeSchema`. -/
structure ResumeRecord where
  name : Json
  email : Json
  phone : Json
  location : Json
  linkedin : Json
  summary : Json
  experience : List Experience
  skills : List Json
  education : List Education

/-- `Array.prototype.map` with a callback that may throw: iterates in
order and propagates the first exception. -/
def mapE (f : α → Except Unit β) : List α → Except Unit (List β)
  | [] => .ok []
  | x :: xs =>
    match f x with
    | .error e => .error e
    | .ok y =>
      match mapE f xs with
      | .error e => .error e
      | .ok ys => .ok (y :: ys)

/-- The bullet callback inside `validateResumeSchema`: a plain string is
an authentic bullet; an object with `tx` defined is `{text: tx, authentic:
!f}`; otherwise the long-key fallback.  Accessing `.tx` on `null` throws
(TypeError). -/
def parseBullet (b : Json) : Except Unit Bullet :=
  match b with
  | .str s => .ok ⟨.str s, true⟩
  | .null => .error ()
  | _ =>
    match getF b "tx" with
    | some tx => .ok ⟨tx, !truthyO (getF b "f")⟩
    | none =>
      .ok ⟨(if truthyO (getF b "text") then (getF b "text").getD (.str "") else .str ""),
        match getF b "authentic" with
        | some (.bool false) => false
        | _ => true⟩

/-- The experience callback inside `validateResumeSchema`: field access on
a `null` entry throws; `(exp.b || exp.bullets || []).map` throws on a
truthy non-array. -/
def parseExp (e : Json) : Except Unit Experience :=
  if isNullJson e then .error ()
  else
    match pick e "b" "bullets" (.arr []) with
    | .arr bs =>
      match mapE parseBullet bs with
      | .error err => .error err
      | .ok bullets =>
        .ok { company := pickS e "c" "company",
              title := pickS e "t" "title",
              dates := pickS e "d" "dates",
              bullets := bullets }
    | _ => .error ()

/-- The education callback inside `validateResumeSchema`. -/
def parseEd (e : Json) : Except Unit Education :=
  if isNullJson e then .error ()
  else
    .ok { institution := pickS e "i" "institution",
          degree := pickS e "dg" "degree",
          dates := pickS e "d" "dates" }

/-- The experience part of `validateResumeSchema`:
`(data.x || data.experience || []).map(exp => ...)`; `.map` on a truthy
non-array throws. -/
def expPart (d : Json) : Except Unit (List Experience) :=
  match pick d "x" "experience" (.arr []) with
  | .arr es => mapE parseExp es
  | _ => .error ()

/-- The education part of `validateResumeSchema`. -/
def edPart (d : Json) : Except Unit (List Education) :=
  match pick d "ed" "education" (.arr []) with
  | .arr es => mapE parseEd es
  | _ => .error ()

/-- The skills part of `validateResumeSchema`:
`Array.isArray(data.sk || data.skills) ? ... : []` — never throws. -/
def skillsPart (d : Json) : List Json :=
  match jsOr (getF d "sk") (getF d "skills") with
  | some (.arr xs) => xs
  | _ => []

/-- `validateResumeSchema(data)` from ai.js, with the JS exception
behaviour made explicit: property access on `null` and `.map` on truthy
non-arrays raise (TypeError), everything else degrades. -/
def validateResumeSchema (data : Json) : Except Unit ResumeRecord :=
  if isNullJson data then .error ()
  else
    match expPart data with
    | .error e => .error e
    | .ok exps =>
      match edPart data with
      | .error e => .error e
      | .ok eds =>
        .ok { name := pickS data "n" "name",
              email := pickS data "e" "email",
              phone := pickS data "ph" "phone",
              location := pickS data "lo" "location",
              linkedin := pickS data "li" "linkedin",
              summary := pickS data "su" "summary",
              experience := exps,
              skills := skillsPart data,
              education := eds }

/-! ## A model of `JSON.parse` (strict JSON grammar) -/

/-- JSON insignificant whitespace (space, tab, newline, carriage
return; strictly smaller than the JS `\s` class). -/
def isJsonWs (c : Char) : Bool :=
  c == ' ' || c == '\t' || c == '\n' || c == '\r'

/-- The left and right curly-brace characters. -/
def lbrace : Char := Char.ofNat 123

/-- The right curly-brace character. -/
def rbrace : Char := Char.ofNat 125

/-- Value of a hexadecimal digit. -/
def hexVal (c : Char) : Option Nat :=
  if c.isDigit then some (c.toNat - 48)
  else
    let lc := c.toLower
    if 'a' ≤ lc ∧ lc ≤ 'f' then some (lc.toNat - 87) else none

/-- JSON string body parser (after the opening quote): processes escape
sequences into UTF-16 code units, rejects raw control characters and
malformed escapes, returns the code units and the rest. -/
def parseStringAux : List Nat → List Char → Option (List Nat × List Char)
  | _, [] => none
  | acc, c :: rest =>
    if c == '"' then some (acc.reverse, rest)
    else if c == '\\' then
      match rest with
      | [] => none
      | e :: rest2 =>
        if e == '"' then parseStringAux (34 :: acc) rest2
        else if e == '\\' then parseStringAux (92 :: acc) rest2
        else if e == '/' then parseStringAux (47 :: acc) rest2
        else if e == 'b' then parseStringAux (8 :: acc) rest2
        else if e == 'f' then parseStringAux (12 :: acc) rest2
        else if e == 'n' then parseStringAux (10 :: acc) rest2
        else if e == 'r' then parseStringAux (13 :: acc) rest2
        else if e == 't' then parseStringAux (9 :: acc) rest2
        else if e == 'u' then
          match rest2 with
          | h1 :: h2 :: h3 :: h4 :: rest3 =>
            match hexVal h1, hexVal h2, hexVal h3, hexVal h4 with
            | some a, some b, some c2, some d =>
              parseStringAux ((((a * 16 + b) * 16 + c2) * 16 + d) :: acc) rest3
            | _, _, _, _ => none
          | _ => none
        else none
    else if c.toNat < 32 then none
    else parseStringAux (c.toNat :: acc) rest

/-- One non-surrogate code unit as a character (JS strings may hold lone
UTF-16 surrogates, which Lean characters cannot; a lone surrogate decodes
to U+FFFD — no input in this development exercises that corner). -/
def unitChar (u : Nat) : Char :=
  if 0xD800 ≤ u ∧ u ≤ 0xDFFF then Char.ofNat 0xFFFD else Char.ofNat u

/-- Combine UTF-16 code units into characters (surrogate pairs join). -/
def unitsToChars : List Nat → List Char
  | [] => []
  | [u] => [unitChar u]
  | u :: v :: rest =>
    if (0xD800 ≤ u ∧ u ≤ 0xDBFF) ∧ (0xDC00 ≤ v ∧ v ≤ 0xDFFF) then
      Char.ofNat (0x10000 + (u - 0xD800) * 0x400 + (v - 0xDC00)) :: unitsToChars rest
    else unitChar u :: unitsToChars (v :: rest)

/-- Decimal value of a digit run. -/
def digitsVal (ds : List Char) : Nat :=
  ds.foldl (fun a c => a * 10 + (c.toNat - 48)) 0

/-- Exponent part of a JSON number; `mant`/`scale` hold the signed
mantissa-so-far as mant * 10^scale. -/
def parseNumExp (neg : Bool) (mant : Nat) (scale : Int) (l : List Char) :
    Option ((Int × Int) × List Char) :=
  let m : Int := if neg then -(mant : Int) else (mant : Int)
  match l with
  | e :: r3 =>
    if e == 'e' || e == 'E' then
      let (esign, r4) :=
        match r3 with
        | s :: r4' =>
          if s == '+' then ((1 : Int), r4')
          else if s == '-' then ((-1 : Int), r4')
          else ((1 : Int), r3)
        | [] => ((1 : Int), r3)
      let es := r4.takeWhile Char.isDigit
      if es.isEmpty then none
      else some ((m, scale + esign * (digitsVal es : Nat)), r4.drop es.length)
    else some ((m, scale), l)
  | [] => some ((m, scale), l)

/-- JSON number parser (exact decimal value as mantissa and exponent).  A
leading-zero digit run is rejected at the token level; `JSON.parse`
instead stops the number token after the `0`, and then fails on the
structural leftover, so the overall accept/reject behaviour is
identical. -/
def parseNum (l : List Char) : Option ((Int × Int) × List Char) :=
  let neg := match l with | c :: _ => c == '-' | [] => false
  let l1 := if neg then l.drop 1 else l
  let ds := l1.takeWhile Char.isDigit
  if ds.isEmpty then none
  else if ds.head? = some '0' ∧ ds.length > 1 then none
  else
    let rest := l1.drop ds.length
    match rest with
    | '.' :: r2 =>
      let fs := r2.takeWhile Char.isDigit
      if fs.isEmpty then none
      else
        parseNumExp neg (digitsVal ds * 10 ^ fs.length + digitsVal fs)
          (-(fs.length : Int)) (r2.drop fs.length)
    | _ => parseNumExp neg (digitsVal ds) 0 rest

mutual

/-- JSON value parser with fuel (every recursive descent consumes input,
so the generous fuel in `jsonParseChars` never runs out first). -/
def parseVal : Nat → List Char → Option (Json × List Char)
  | 0, _ => none
  | fuel + 1, l0 =>
    let l := l0.dropWhile isJsonWs
    match l with
    | [] => none
    | c :: rest =>
      if c == lbrace then
        let r1 := rest.dropWhile isJsonWs
        match r1 with
        | c2 :: r2 =>
          if c2 == rbrace then some (.obj [], r2)
          else
            match parseMems fuel r1 with
            | some (ms, r) => some (.obj ms, r)
            | none => none
        | [] => none
      else if c == '[' then
        let r1 := rest.dropWhile isJsonWs
        match r1 with
        | c2 :: r2 =>
          if c2 == ']' then some (.arr [], r2)
          else
            match parseElems fuel r1 with
            | some (vs, r) => some (.arr vs, r)
            | none => none
        | [] => none
      else if c == '"' then
        match parseStringAux [] rest with
        | some (cs, r) => some (.str (String.mk (unitsToChars cs)), r)
        | none => none
      else if c == 't' then
        match rest with
        | 'r' :: 'u' :: 'e' :: r => some (.bool true, r)
        | _ => none
      else if c == 'f' then
        match rest with
        | 'a' :: 'l' :: 's' :: 'e' :: r => some (.bool false, r)
        | _ => none
      else if c == 'n' then
        match rest with
        | 'u' :: 'l' :: 'l' :: r => some (.null, r)
        | _ => none
      else if c == '-' || c.isDigit then
        match parseNum l with
        | some ((m, e), r) => some (.num m e, r)
        | none => none
      else none

/-- JSON object member list parser (positioned at the first member). -/
def parseMems : Nat → List Char → Option (List (String × Json) × List Char)
  | 0, _ => none
  | fuel + 1, l =>
    match l.dropWhile isJsonWs with
    | '"' :: r1 =>
      match parseStringAux [] r1 with
      | some (key, r2) =>
        match r2.dropWhile isJsonWs with
        | ':' :: r3 =>
          match parseVal fuel r3 with
          | some (v, r4) =>
            match r4.dropWhile isJsonWs with
            | ',' :: r5 =>
              match parseMems fuel r5 with
              | some (ms, r6) => some ((String.mk (unitsToChars key), v) :: ms, r6)
              | none => none
            | c :: r5 => if c == rbrace then some ([(String.mk (unitsToChars key), v)], r5) else none
            | [] => none
          | none => none
        | _ => none
      | none => none
    | _ => none

/-- JSON array element list parser (positioned at the first element). -/
def parseElems : Nat → List Char → Option (List Json × List Char)
  | 0, _ => none
  | fuel + 1, l =>
    match parseVal fuel l with
    | some (v, r1) =>
      match r1.dropWhile isJsonWs with
      | ',' :: r2 =>
        match parseElems fuel r2 with
        | some (vs, r3) => some (v :: vs, r3)
        | none => none
      | c :: r2 => if c == ']' then some ([v], r2) else none
      | [] => none
    | none => none

end

/-- `JSON.parse` on a character list: parse one value and require only
whitespace after it. -/
def jsonParseChars (l : List Char) : Option Json :=
  match parseVal (2 * l.length + 2) l with
  | some (v, rest) => if (rest.dropWhile isJsonWs).isEmpty then some v else none
  | none => none

/-! ## parseResumeJSON (src/utils/ai.js) -/

/-- JS `String.prototype.trim`. -/
def trimJs (l : List Char) : List Char :=
  ((l.dropWhile isJsWs).reverse.dropWhile isJsWs).reverse

/-- Three backticks. -/
def backtick3 : List Char := [Char.ofNat 96, Char.ofNat 96, Char.ofNat 96]

/-- Does `hay` start with `needle`? -/
def startsWithL : List Char → List Char → Bool
  | _, [] => true
  | [], _ :: _ => false
  | h :: t, n :: nt => h == n && startsWithL t nt

/-- `text.replace(/^```(?:json)?\s*/i, '')`: strip a leading fence with
optional case-insensitive `json` tag and following whitespace. -/
def stripLeadFence (l : List Char) : List Char :=
  if startsWithL l backtick3 then
    let l1 := l.drop 3
    let l2 := if (l1.take 4).map Char.toLower = "json".data then l1.drop 4 else l1
    l2.dropWhile isJsWs
  else l

/-- `text.replace(/\s*```$/i, '')`: strip a trailing fence and the
whitespace before it. -/
def stripTrailFence (l : List Char) : List Char :=
  if startsWithL l.reverse backtick3 then
    ((l.take (l.length - 3)).reverse.dropWhile isJsWs).reverse
  else l

/-- The trim-and-strip-fences prefix of `parseResumeJSON`. -/
def preprocess (rawText : String) : List Char :=
  stripTrailFence (stripLeadFence (trimJs rawText.data))

/-- The JSON-boundary extraction of `parseResumeJSON`: substring from the
first left brace to the last right brace, `none` when either marker is
missing (when the last right brace precedes the first left brace JS
`slice` yields the empty string, which then fails both parses). -/
def boundarySlice (text : List Char) : Option (List Char) :=
  match text.findIdx? (· == lbrace) with
  | none => none
  | some s =>
    match text.reverse.findIdx? (· == rbrace) with
    | none => none
    | some i => some ((text.drop s).take (text.length - 1 - i + 1 - s))

/-- Does the run of whitespace at the head end at a closing brace or
bracket? (the lookahead of the trailing-comma repair regex). -/
def nextNonWsIsClose (l : List Char) : Bool :=
  match l.dropWhile isJsWs with
  | c :: _ => c == rbrace || c == ']'
  | [] => false

/-- `text.replace(/,(\s*[}\]])/g, '$1')`: delete every comma that is
followed (after whitespace) by a closing brace or bracket. -/
def fixTrailingCommas : List Char → List Char
  | [] => []
  | c :: rest =>
    if c == ',' && nextNonWsIsClose rest then fixTrailingCommas rest
    else c :: fixTrailingCommas rest

/-- The exceptions `parseResumeJSON` can raise: the explicit
no-JSON-object error, a `SyntaxError` from `JSON.parse`, or a `TypeError`
from `validateResumeSchema`. -/
inductive JsError where
  | noJson
  | syntaxError
  | typeError
deriving DecidableEq

/-- One parse-then-validate attempt (the body of the `try`, and again the
body of the `catch`). -/
def attempt (t : List Char) : Except JsError ResumeRecord :=
  match jsonParseChars t with
  | none => .error .syntaxError
  | some v =>
    match validateResumeSchema v with
    | .ok r => .ok r
    | .error _ => .error .typeError

/-- `parseResumeJSON(rawText)` from ai.js: trim, strip fences, slice to
the brace boundary, then try parse+validate, and on any exception retry
once on the trailing-comma-repaired text. -/
def parseResumeJSON (rawText : String) : Except JsError ResumeRecord :=
  match boundarySlice (preprocess rawText) with
  | none => .error .noJson
  | some t =>
    match attempt t with
    | .ok r => .ok r
    | .error _ => attempt (fixTrailingCommas t)

/-! ## recordSession (memory module) -/

/-- `bullet.text || ''` followed by the string methods `recordSession`
applies: a falsy value degrades to the empty string, a truthy non-string
raises (`.trim` is not a function). -/
def textString (t : Json) : Except Unit String :=
  if truthy t then
    match t with
    | .str s => .ok s
    | _ => .error ()
  else .ok ""

/-- First character in the ASCII range A-Z (the `/^[A-Z]/` test). -/
def isUpperAZ (c : Char) : Bool := 'A' ≤ c && c ≤ 'Z'

/-- Deduplication keeping first occurrences (`[...new Set(verbs)]`). -/
def dedupAux : List String → List String → List String
  | _, [] => []
  | seen, x :: t =>
    if seen.contains x then dedupAux seen t else x :: dedupAux (x :: seen) t

/-- `extractBulletVerbs(resume)`: first word of each bullet, kept when
longer than one character and starting with a capital letter,
deduplicated. -/
def extractBulletVerbs (resume : ResumeRecord) : Except Unit (List String) :=
  match mapE (fun (job : Experience) =>
      mapE (fun (b : Bullet) => textString b.text) job.bullets) resume.experience with
  | .error e => .error e
  | .ok nested =>
    let verbs := nested.flatten.filterMap (fun s =>
      match (splitWsRuns (trimJs s.data)).head? with
      | some w =>
        if w.length > 1 && isUpperAZ (w.data.headD ' ') then some w else none
      | none => none)
    .ok (dedupAux [] verbs)

/-- `(text || '').trim().split(/\s+/).length`: the empty string splits to
`[""]` of length 1. -/
def wordCountOf (s : String) : Nat :=
  let t := trimJs s.data
  if t.isEmpty then 1 else (splitWsRuns t).length

/-- `calcAvgBulletLen(resume)`: mean word count over all bullets, half-up
rounded, defaulting to 18 with no bullets. -/
def calcAvgBulletLen (resume : ResumeRecord) : Except Unit Nat :=
  match mapE (fun (job : Experience) =>
      mapE (fun (b : Bullet) => textString b.text) job.bullets) resume.experience with
  | .error e => .error e
  | .ok nested =>
    let lengths := nested.flatten.map wordCountOf
    .ok (if lengths.isEmpty then 18
      else jsRound (lengths.foldl (· + ·) 0) lengths.length)

/-- The incoming `jobData` record (fields may be absent). -/
structure JobData where
  title : Option String
  company : Option String
  source : Option String
  url : Option String

/-- `o || d` on an optional string field. -/
def jsOrStr (o : Option String) (d : String) : String :=
  match o with
  | some s => if s = "" then d else s
  | none => d

/-- `recordSession({jobData, confirmedResume, keywordsUsed})` as a pure
transform on the stored memory.  `Date.now()` and the date string are
external inputs, passed as the `id` and `date` parameters. -/
def recordSession (mem : Memory) (jobData : JobData) (confirmedResume : ResumeRecord)
    (keywordsUsed : Option (List String)) (id : Int) (date : String) :
    Except Unit (Memory × Int) :=
  match extractBulletVerbs confirmedResume with
  | .error e => .error e
  | .ok bulletVerbs =>
    match calcAvgBulletLen confirmedResume with
    | .error e => .error e
    | .ok avgBulletLen =>
      let session : SessionRecord :=
        { id := id, date := date,
          job := { title := jsOrStr jobData.title "",
                   company := jsOrStr jobData.company "",
                   source := jsOrStr jobData.source "manual",
                   url := jsOrStr jobData.url "" },
          targetRole := jsOrStr jobData.title "",
          keywordsUsed := keywordsUsed.getD [],
          bulletVerbs := bulletVerbs,
          avgBulletLen := avgBulletLen,
          status := "tailored" }
      let sessions := mem.sessions ++ [session]
      .ok ({ sessions := sessions,
             aggregate := rebuildAggregate sessions mem.aggregate }, id)

/-! ## Prompt builder (token-optimised prompts module) -/

/-- `buildUserPrompt({baseResume, jobDescription})`: the job description
is truncated to its first 1500 characters (plus an ellipsis marker) when
longer. -/
def buildUserPrompt (baseResume jobDescription : String) : String :=
  let jdTruncated :=
    if jobDescription.length > 1500 then takeStr jobDescription 1500 ++ "..."
    else jobDescription
  "RESUME:\n" ++ baseResume ++ "\n\nJOB:\n" ++ jdTruncated ++ "\n\nOutput JSON only."

/-! ## Error classifier `parseGeminiError` (src/utils/ai.js) -/

/-- Does `hay` contain `needle` (JS `String.prototype.includes`)? -/
def containsL (needle : List Char) : List Char → Bool
  | [] => startsWithL [] needle
  | c :: t => startsWithL (c :: t) needle || containsL needle t

/-- Case-sensitive substring test. -/
def includes (hay needle : String) : Bool := containsL needle.data hay.data

/-- Case-insensitive ASCII match of `needle` at the head of `hay`. -/
def startsWithCI : List Char → List Char → Bool
  | _, [] => true
  | [], _ :: _ => false
  | h :: t, n :: nt => h.toLower == n.toLower && startsWithCI t nt

/-- `Math.ceil(parseFloat(...))` on a captured `digits(.digits)?`
string. -/
def ceilNum (ds fs : List Char) : Nat :=
  digitsVal ds + (if fs.any (fun c => c != '0') then 1 else 0)

/-- Try to complete the regex `[^0-9]*(\d+(?:\.\d+)?)s` right after a
`retry` occurrence: skip to the first digit, take the digit run, an
optional fraction, then require `s` (case-insensitive).  Backtracking
inside the digit runs can never succeed where this fails, because every
shorter run is followed by another digit. -/
def tryRetryAt (l : List Char) : Option Nat :=
  let afterND := l.dropWhile (fun c => !c.isDigit)
  let ds := afterND.takeWhile Char.isDigit
  if ds.isEmpty then none
  else
    match afterND.drop ds.length with
    | c :: r2 =>
      if c == 's' || c == 'S' then some (ceilNum ds [])
      else if c == '.' then
        let fs := r2.takeWhile Char.isDigit
        if fs.isEmpty then none
        else
          match r2.drop fs.length with
          | c2 :: _ => if c2 == 's' || c2 == 'S' then some (ceilNum ds fs) else none
          | [] => none
      else none
    | [] => none

/-- Search for the first match of `/retry[^0-9]*(\d+(?:\.\d+)?)s/i` and
return `Math.ceil` of its capture. -/
def searchRetry : List Char → Option Nat
  | [] => none
  | c :: t =>
    if startsWithCI (c :: t) "retry".data then
      match tryRetryAt ((c :: t).drop 5) with
      | some n => some n
      | none => searchRetry t
    else searchRetry t

/-- Try to complete `\s*:\s*"(\d+(\.\d+)?)s"` right after a
`"retryDelay"` occurrence. -/
def tryRetryDelayAt (l : List Char) : Option Nat :=
  match l.dropWhile isJsWs with
  | ':' :: r2 =>
    match r2.dropWhile isJsWs with
    | '"' :: r4 =>
      let ds := r4.takeWhile Char.isDigit
      if ds.isEmpty then none
      else
        match r4.drop ds.length with
        | c :: r5 =>
          if c == 's' || c == 'S' then
            match r5 with
            | '"' :: _ => some (ceilNum ds [])
            | _ => none
          else if c == '.' then
            let fs := r5.takeWhile Char.isDigit
            if fs.isEmpty then none
            else
              match r5.drop fs.length with
              | c2 :: r6 =>
                if c2 == 's' || c2 == 'S' then
                  match r6 with
                  | '"' :: _ => some (ceilNum ds fs)
                  | _ => none
                else none
              | [] => none
          else none
        | [] => none
    | _ => none
  | _ => none

/-- Search for the first match of
`/"retryDelay"\s*:\s*"(\d+(\.\d+)?)s"/i`. -/
def searchRetryDelay : List Char → Option Nat
  | [] => none
  | c :: t =>
    if startsWithCI (c :: t) "\"retryDelay\"".data then
      match tryRetryDelayAt ((c :: t).drop 12) with
      | some n => some n
      | none => searchRetryDelay t
    else searchRetryDelay t

/-- A classified error.  JS objects without a `retryAfter` field and the
explicit `retryAfter: null` are both modelled as `none`. -/
structure ClassifiedError where
  code : String
  message : String
  retryAfter : Option Nat
deriving DecidableEq

/-- `parseGeminiError(err)` from ai.js, on the error signal text
(`err?.message || String(err)`). -/
def parseGeminiError (msg : String) : ClassifiedError :=
  if includes msg "429" || includes msg "RESOURCE_EXHAUSTED" || includes msg "quota" then
    let retrySeconds :=
      match searchRetry msg.data with
      | some n => n
      | none =>
        match searchRetryDelay msg.data with
        | some n => n
        | none => 60
    if includes msg "PerDay" || includes msg "per_day" || includes msg "RPD" then
      { code := "DAILY_LIMIT",
        message := "You\x27ve used all your free Gemini requests for today. Your quota resets at midnight Pacific Time. You can also enable billing on your Google AI project for higher limits.",
        retryAfter := none }
    else
      { code := "RATE_LIMIT",
        message := "Gemini rate limit hit. Wait " ++ toString retrySeconds ++ " seconds and try again.",
        retryAfter := some retrySeconds }
  else if includes msg "401" || includes msg "API_KEY_INVALID" || includes msg "invalid api key" then
    { code := "INVALID_KEY",
      message := "Invalid API key. Check your key in Settings.",
      retryAfter := none }
  else if includes msg "403" || includes msg "PERMISSION_DENIED" then
    { code := "PERMISSION",
      message := "API key doesn\x27t have Gemini access. Make sure you\x27ve enabled the Generative Language API in your Google Cloud project.",
      retryAfter := none }
  else if includes msg "500" || includes msg "INTERNAL" then
    { code := "SERVER_ERROR",
      message := "Gemini server error. Try again in a moment.",
      retryAfter := none }
  else
    { code := "UNKNOWN",
      message := "AI error: " ++ takeStr msg 100,
      retryAfter := none }

/-! ## Helper predicates and concrete data used by the claim theorems -/

/-- Is an `Except` an error? -/
def exceptIsErr : Except ε α → Bool
  | .error _ => true
  | .ok _ => false

/-- The experience entries on which the schema normalizer raises: `null`
entries, entries whose picked bullets value is a truthy non-array, and
entries containing a `null` bullet. -/
def badExp (e : Json) : Bool :=
  if isNullJson e then true
  else
    match pick e "b" "bullets" (.arr []) with
    | .arr bs => bs.any isNullJson
    | _ => true

/-- The parsed values on which the schema normalizer raises: `null`, a
truthy non-array experience or education field, or a bad entry inside
them. -/
def badShape (data : Json) : Bool :=
  if isNullJson data then true
  else
    (match pick data "x" "experience" (.arr []) with
     | .arr es => es.any badExp
     | _ => true)
    ||
    (match pick data "ed" "education" (.arr []) with
     | .arr es => es.any isNullJson
     | _ => true)

/-- One parse-then-validate attempt fails: the JSON parse fails, or it
succeeds with a value the schema normalizer raises on. -/
def attemptFails (t : List Char) : Bool :=
  match jsonParseChars t with
  | none => true
  | some v => badShape v

/-- The retry delay the classifier extracts from a quota signal,
defaulting to 60 seconds. -/
def extractedRetrySeconds (msg : String) : Nat :=
  match searchRetry msg.data with
  | some n => n
  | none =>
    match searchRetryDelay msg.data with
    | some n => n
    | none => 60

/-- Two session records agreeing on every field except possibly
`status`. -/
def agreesExceptStatus (a b : SessionRecord) : Prop :=
  a.id = b.id ∧ a.date = b.date ∧ a.job = b.job ∧ a.targetRole = b.targetRole ∧
    a.keywordsUsed = b.keywordsUsed ∧ a.bulletVerbs = b.bulletVerbs ∧
    a.avgBulletLen = b.avgBulletLen

/-- The `name` field of a normalization result, when it succeeded. -/
def resumeName : Except JsError ResumeRecord → Option Json
  | .ok r => some r.name
  | .error _ => none

/-- An empty confirmed resume (used to exercise `recordSession`). -/
def emptyResume : ResumeRecord :=
  { name := .str "", email := .str "", phone := .str "", location := .str "",
    linkedin := .str "", summary := .str "", experience := [], skills := [],
    education := [] }

/-- Project the memory out of a successful `recordSession` result. -/
def memOfOk : Except Unit (Memory × Int) → Memory
  | .ok (m, _) => m
  | .error _ => defaultMemory

/-- A concrete stored session. -/
def sess1 : SessionRecord :=
  { id := 1, date := "2026-01-01",
    job := { title := "T", company := "C", source := "manual", url := "" },
    targetRole := "T", keywordsUsed := [], bulletVerbs := [], avgBulletLen := 18,
    status := "tailored" }

/-- Another concrete stored session. -/
def sess2 : SessionRecord :=
  { id := 2, date := "2026-01-02",
    job := { title := "U", company := "D", source := "manual", url := "" },
    targetRole := "U", keywordsUsed := ["python"], bulletVerbs := ["Led"],
    avgBulletLen := 12, status := "tailored" }

/-- A concrete stored memory with two sessions. -/
def memW : Memory := { sessions := [sess1, sess2], aggregate := defaultMemory.aggregate }

/-- A 1501-character job description. -/
def bigJD : String := String.mk (List.replicate 1501 'a')

/-- The compact short-key payload from the spec example. -/
def adaInput : String :=
  "\x7b\"n\":\"Ada\",\"x\":[\x7b\"c\":\"IBM\",\"b\":[\"Did a thing\"]\x7d]\x7d"

/-! ## Supporting lemmas -/

theorem bool_eq_of_iff {a b : Bool} (h : a = true ↔ b = true) : a = b := by
  cases a <;> cases b <;> simp_all

theorem forall2_status_refl (sessionId : Int) (l : List SessionRecord) :
    List.Forall₂ (fun a b => agreesExceptStatus b a ∧ (a.id ≠ sessionId → b = a)) l l := by
  induction l with
  | nil => exact List.Forall₂.nil
  | cons s t ih =>
    exact List.Forall₂.cons ⟨⟨rfl, rfl, rfl, rfl, rfl, rfl, rfl⟩, fun _ => rfl⟩ ih

theorem setStatusFirst_forall2 (sessionId : Int) (status : String) (l : List SessionRecord) :
    List.Forall₂ (fun a b => agreesExceptStatus b a ∧ (a.id ≠ sessionId → b = a))
      l (setStatusFirst sessionId status l) := by
  induction l with
  | nil => exact List.Forall₂.nil
  | cons s t ih =>
    by_cases h : s.id = sessionId
    · simp only [setStatusFirst, if_pos h]
      exact List.Forall₂.cons
        ⟨⟨rfl, rfl, rfl, rfl, rfl, rfl, rfl⟩, fun hne => absurd h hne⟩
        (forall2_status_refl sessionId t)
    · simp only [setStatusFirst, if_neg h]
      exact List.Forall₂.cons ⟨⟨rfl, rfl, rfl, rfl, rfl, rfl, rfl⟩, fun _ => rfl⟩ ih

theorem setStatusFirst_append (sessionId : Int) (status : String) (s : SessionRecord)
    (hs : s.id = sessionId) :
    ∀ pre post, (∀ t ∈ pre, t.id ≠ sessionId) →
      setStatusFirst sessionId status (pre ++ s :: post) =
        pre ++ ({ s with status := status } :: post) := by
  intro pre
  induction pre with
  | nil => intro post _; simp [setStatusFirst, hs]
  | cons t pre ih =>
    intro post hpre
    have ht : t.id ≠ sessionId := hpre t (List.mem_cons_self t pre)
    simp only [List.cons_append, setStatusFirst, if_neg ht]
    exact congrArg (t :: ·) (ih post fun u hu => hpre u (List.mem_cons_of_mem t hu))

/-! ## Claim theorems -/

/-- Claim C5: for every base resume and job description, when the job
description exceeds the 1500-character budget, the built user prompt
contains exactly its 1500-character prefix (followed by an ellipsis
marker) in the JOB section. -/
theorem claim5_user_prompt_truncation (baseResume jobDescription : String)
    (h : 1500 < jobDescription.length) :
    buildUserPrompt baseResume jobDescription =
      "RESUME:\n" ++ baseResume ++ "\n\nJOB:\n" ++ takeStr jobDescription 1500 ++ "..."
        ++ "\n\nOutput JSON only." := by
  unfold buildUserPrompt
  rw [if_pos h]
  simp [String.append_assoc]

set_option maxRecDepth 8192 in
/-- Witness for C5 at a 1501-character job description. -/
theorem claim5_witness :
    1500 < bigJD.length ∧
      buildUserPrompt "base" bigJD =
        "RESUME:\n" ++ "base" ++ "\n\nJOB:\n" ++ takeStr bigJD 1500 ++ "..."
          ++ "\n\nOutput JSON only." :=
  ⟨by decide, claim5_user_prompt_truncation "base" bigJD (by decide)⟩

/-- Claim C6: `shouldRebuildSummary` is true exactly when at least 5
sessions have passed since the last rebuild and there are at least 2
sessions; in particular it is false at `totalSessions = 1` and false
whenever `summaryBuiltAt = totalSessions`. -/
theorem claim6_shouldRebuildSummary_iff :
    (∀ aggregate : AggregateRecord,
        shouldRebuildSummary aggregate = true ↔
          ((aggregate.totalSessions : Int) - (aggregate.summaryBuiltAt : Int) ≥ 5 ∧
            2 ≤ aggregate.totalSessions))
    ∧ (∀ tr tk tv al ps sb, shouldRebuildSummary ⟨1, tr, tk, tv, al, ps, sb⟩ = false)
    ∧ (∀ n tr tk tv al ps, shouldRebuildSummary ⟨n, tr, tk, tv, al, ps, n⟩ = false) := by
  have main : ∀ aggregate : AggregateRecord,
      shouldRebuildSummary aggregate = true ↔
        ((aggregate.totalSessions : Int) - (aggregate.summaryBuiltAt : Int) ≥ 5 ∧
          2 ≤ aggregate.totalSessions) := by
    intro a
    simp [shouldRebuildSummary, SUMMARY_REBUILD_EVERY]
  refine ⟨main, fun tr tk tv al ps sb => ?_, fun n tr tk tv al ps => ?_⟩
  · cases h : shouldRebuildSummary ⟨1, tr, tk, tv, al, ps, sb⟩
    · rfl
    · have := (main _).mp h
      simp at this
  · cases h : shouldRebuildSummary ⟨n, tr, tk, tv, al, ps, n⟩
    · rfl
    · have := (main _).mp h
      simp at this

/-- Claim C9: `rebuildAggregate` leaves `preferenceSummary` and
`summaryBuiltAt` exactly equal to the prior aggregate's values, and every
other field depends only on the session list; through `recordSession` the
new aggregate keeps the stored summary pair and equals the pure
recomputation from the appended session list. -/
theorem claim9_rebuild_preserves_summary :
    (∀ (sessions : List SessionRecord) (p q : AggregateRecord),
        rebuildAggregate sessions p =
          { rebuildAggregate sessions q with
            preferenceSummary := p.preferenceSummary,
            summaryBuiltAt := p.summaryBuiltAt })
    ∧ (∀ (mem : Memory) (jobData : JobData) (confirmedResume : ResumeRecord)
        (keywordsUsed : Option (List String)) (id : Int) (date : String)
        (mem' : Memory) (sid : Int),
        recordSession mem jobData confirmedResume keywordsUsed id date = .ok (mem', sid) →
          mem'.aggregate.preferenceSummary = mem.aggregate.preferenceSummary ∧
          mem'.aggregate.summaryBuiltAt = mem.aggregate.summaryBuiltAt ∧
          mem'.aggregate = rebuildAggregate mem'.sessions mem.aggregate) := by
  refine ⟨fun sessions p q => rfl, ?_⟩
  intro mem jobData confirmedResume keywordsUsed id date mem' sid h
  cases hev : extractBulletVerbs confirmedResume with
  | error e => simp [recordSession, hev] at h
  | ok verbs =>
    cases hav : calcAvgBulletLen confirmedResume with
    | error e => simp [recordSession, hev, hav] at h
    | ok avg =>
      simp only [recordSession, hev, hav, Except.ok.injEq, Prod.mk.injEq] at h
      obtain ⟨h1, h2⟩ := h
      subst h1
      exact ⟨rfl, rfl, rfl⟩

/-- Witness for C9: a concrete `recordSession` run starting from the empty
memory. -/
theorem claim9_witness :
    (memOfOk (recordSession defaultMemory ⟨none, none, none, none⟩ emptyResume none 7
        "2026-10-12")).aggregate.preferenceSummary =
      defaultMemory.aggregate.preferenceSummary ∧
    (memOfOk (recordSession defaultMemory ⟨none, none, none, none⟩ emptyResume none 7
        "2026-10-12")).aggregate.summaryBuiltAt =
      defaultMemory.aggregate.summaryBuiltAt ∧
    (memOfOk (recordSession defaultMemory ⟨none, none, none, none⟩ emptyResume none 7
        "2026-10-12")).aggregate =
      rebuildAggregate
        (memOfOk (recordSession defaultMemory ⟨none, none, none, none⟩ emptyResume none 7
          "2026-10-12")).sessions
        defaultMemory.aggregate :=
  claim9_rebuild_preserves_summary.2 defaultMemory ⟨none, none, none, none⟩ emptyResume none 7
    "2026-10-12"
    (memOfOk (recordSession defaultMemory ⟨none, none, none, none⟩ emptyResume none 7
      "2026-10-12"))
    7 rfl

/-- Claim C10: `updateSessionStatus` keeps the aggregate, changes at most
the `status` field of stored sessions, replaces exactly the status of the
first session whose id matches, and performs no write (returns the memory
unchanged) when no session has the id. -/
theorem claim10_updateSessionStatus_frame (mem : Memory) (sessionId : Int) (status : String) :
    ((updateSessionStatus mem sessionId status).1.aggregate = mem.aggregate)
    ∧ List.Forall₂
        (fun a b => agreesExceptStatus b a ∧ (a.id ≠ sessionId → b = a))
        mem.sessions (updateSessionStatus mem sessionId status).1.sessions
    ∧ (∀ pre s post, mem.sessions = pre ++ s :: post → s.id = sessionId →
        (∀ t ∈ pre, t.id ≠ sessionId) →
        (updateSessionStatus mem sessionId status).1.sessions =
          pre ++ ({ s with status := status } :: post))
    ∧ ((∀ s ∈ mem.sessions, s.id ≠ sessionId) →
        updateSessionStatus mem sessionId status = (mem, false)) := by
  by_cases hany : mem.sessions.any (fun s => s.id == sessionId) = true
  · refine ⟨?_, ?_, ?_, ?_⟩
    · simp [updateSessionStatus, hany]
    · simpa [updateSessionStatus, hany] using
        setStatusFirst_forall2 sessionId status mem.sessions
    · intro pre s post hmem hs hpre
      simp only [updateSessionStatus, hany, if_pos]
      rw [hmem]
      exact setStatusFirst_append sessionId status s hs pre post hpre
    · intro hnone
      exfalso
      simp only [List.any_eq_true] at hany
      obtain ⟨s, hsmem, hbeq⟩ := hany
      exact hnone s hsmem (by simpa using hbeq)
  · have hfalse : mem.sessions.any (fun s => s.id == sessionId) = false :=
      Bool.not_eq_true _ ▸ (by simpa using hany)
    refine ⟨?_, ?_, ?_, ?_⟩
    · simp [updateSessionStatus, hfalse]
    · simpa [updateSessionStatus, hfalse] using forall2_status_refl sessionId mem.sessions
    · intro pre s post hmem hs _
      exfalso
      apply hany
      simp only [List.any_eq_true]
      exact ⟨s, by rw [hmem]; exact List.mem_append_right pre (List.mem_cons_self s post),
        by simp [hs]⟩
    · intro _
      simp [updateSessionStatus, hfalse]

theorem mapE_isErr (f : α → Except Unit β) (xs : List α) :
    exceptIsErr (mapE f xs) = xs.any fun x => exceptIsErr (f x) := by
  induction xs with
  | nil => rfl
  | cons x xs ih =>
    cases hf : f x with
    | error e => simp [mapE, hf, exceptIsErr]
    | ok y =>
      cases hm : mapE f xs with
      | error e =>
        have h2 : (xs.any fun x => exceptIsErr (f x)) = true := by rw [← ih, hm]; rfl
        simp only [mapE, hf, hm, List.any_cons, h2, Bool.or_true]
        rfl
      | ok ys =>
        have h2 : (xs.any fun x => exceptIsErr (f x)) = false := by rw [← ih, hm]; rfl
        simp only [mapE, hf, hm, List.any_cons, h2, Bool.or_false]
        rfl

theorem parseBullet_isErr (b : Json) : exceptIsErr (parseBullet b) = isNullJson b := by
  cases b with
  | obj fs =>
    cases h : getLast fs "tx" <;> simp [parseBullet, getF, h, exceptIsErr, isNullJson]
  | null => rfl
  | bool v => rfl
  | num m e => rfl
  | str s => rfl
  | arr xs => rfl

theorem parseExp_isErr (e : Json) : exceptIsErr (parseExp e) = badExp e := by
  cases hn : isNullJson e
  · simp only [parseExp, badExp, hn, Bool.false_eq_true, if_false]
    cases hp : pick e "b" "bullets" (.arr []) with
    | arr bs =>
      have hany : exceptIsErr (mapE parseBullet bs) = bs.any isNullJson := by
        rw [mapE_isErr]; simp only [parseBullet_isErr]
      cases hm : mapE parseBullet bs with
      | error err => simp [hm, exceptIsErr, ← hany]
      | ok bl => simp [hm, exceptIsErr, ← hany]
    | null => simp [exceptIsErr]
    | bool v => simp [exceptIsErr]
    | num m ex => simp [exceptIsErr]
    | str s => simp [exceptIsErr]
    | obj fs => simp [exceptIsErr]
  · simp [parseExp, badExp, hn, exceptIsErr]

theorem parseEd_isErr (e : Json) : exceptIsErr (parseEd e) = isNullJson e := by
  cases hn : isNullJson e <;> simp [parseEd, hn, exceptIsErr]

theorem expPart_isErr (d : Json) :
    exceptIsErr (expPart d) =
      (match pick d "x" "experience" (.arr []) with
       | .arr es => es.any badExp
       | _ => true) := by
  cases hp : pick d "x" "experience" (.arr []) with
  | arr es =>
    have hany : exceptIsErr (mapE parseExp es) = es.any badExp := by
      rw [mapE_isErr]; simp only [parseExp_isErr]
    simpa [expPart, hp] using hany
  | null => simp [expPart, hp, exceptIsErr]
  | bool v => simp [expPart, hp, exceptIsErr]
  | num m ex => simp [expPart, hp, exceptIsErr]
  | str s => simp [expPart, hp, exceptIsErr]
  | obj fs => simp [expPart, hp, exceptIsErr]

theorem edPart_isErr (d : Json) :
    exceptIsErr (edPart d) =
      (match pick d "ed" "education" (.arr []) with
       | .arr es => es.any isNullJson
       | _ => true) := by
  cases hp : pick d "ed" "education" (.arr []) with
  | arr es =>
    have hany : exceptIsErr (mapE parseEd es) = es.any isNullJson := by
      rw [mapE_isErr]; simp only [parseEd_isErr]
    simpa [edPart, hp] using hany
  | null => simp [edPart, hp, exceptIsErr]
  | bool v => simp [edPart, hp, exceptIsErr]
  | num m ex => simp [edPart, hp, exceptIsErr]
  | str s => simp [edPart, hp, exceptIsErr]
  | obj fs => simp [edPart, hp, exceptIsErr]

theorem validate_isErr (data : Json) :
    exceptIsErr (validateResumeSchema data) = badShape data := by
  cases hn : isNullJson data
  · simp only [validateResumeSchema, badShape, hn, Bool.false_eq_true, if_false]
    cases he : expPart data with
    | error err =>
      have h1 := expPart_isErr data
      rw [he] at h1
      rw [← h1]
      simp [exceptIsErr]
    | ok exps =>
      have h1 := expPart_isErr data
      rw [he] at h1
      cases hd : edPart data with
      | error err2 =>
        have h2 := edPart_isErr data
        rw [hd] at h2
        rw [← h1, ← h2]
        simp [exceptIsErr]
      | ok eds =>
        have h2 := edPart_isErr data
        rw [hd] at h2
        rw [← h1, ← h2]
        simp [exceptIsErr]
  · simp [validateResumeSchema, badShape, hn, exceptIsErr]

theorem attempt_isErr (t : List Char) : exceptIsErr (attempt t) = attemptFails t := by
  cases hp : jsonParseChars t with
  | none => simp [attempt, attemptFails, hp, exceptIsErr]
  | some v =>
    simp only [attempt, attemptFails, hp]
    cases hv : validateResumeSchema v with
    | error e =>
      have h1 := validate_isErr v
      rw [hv] at h1
      rw [← h1]
      simp [exceptIsErr]
    | ok r =>
      have h1 := validate_isErr v
      rw [hv] at h1
      rw [← h1]
      simp [exceptIsErr]

/-- Claim C1 (amended): `parseResumeJSON` raises exactly when no brace
boundary is found, or both the strict attempt and the repaired attempt
fail — where an attempt fails either because `JSON.parse` rejects the
text or because the parsed value has a shape the schema normalizer raises
on (a `null`, a truthy non-array experience/bullets/education field, or a
`null` entry inside them); every other input yields a total
ResumeRecord. -/
theorem claim1_amended (rawText : String) :
    exceptIsErr (parseResumeJSON rawText) = true ↔
      (boundarySlice (preprocess rawText) = none ∨
        ∃ t, boundarySlice (preprocess rawText) = some t ∧
          attemptFails t = true ∧ attemptFails (fixTrailingCommas t) = true) := by
  cases hb : boundarySlice (preprocess rawText) with
  | none => simp [parseResumeJSON, hb, exceptIsErr]
  | some t =>
    simp only [parseResumeJSON, hb]
    have key : exceptIsErr
        (match attempt t with
         | .ok r => .ok r
         | .error _ => attempt (fixTrailingCommas t)) =
        (attemptFails t && attemptFails (fixTrailingCommas t)) := by
      cases ha : attempt t with
      | ok r =>
        have h1 := attempt_isErr t
        rw [ha] at h1
        have h1' : attemptFails t = false := by rw [← h1]; rfl
        simp only [h1', Bool.false_and]
        rfl
      | error e =>
        have h1 := attempt_isErr t
        rw [ha] at h1
        have h1' : attemptFails t = true := by rw [← h1]; rfl
        simp only [h1', Bool.true_and]
        exact attempt_isErr (fixTrailingCommas t)
    rw [key]
    simp [Bool.and_eq_true]

/-- Counterexample to C1 as stated: on the input with a truthy non-array
`x` field, both brace markers exist and the strict JSON parse succeeds,
yet `parseResumeJSON` raises (a TypeError from the schema step). -/
theorem claim1_counterexample :
    exceptIsErr (parseResumeJSON "\x7b\"x\":1\x7d") = true ∧
    parseResumeJSON "\x7b\"x\":1\x7d" = .error .typeError ∧
    boundarySlice (preprocess "\x7b\"x\":1\x7d") = some ("\x7b\"x\":1\x7d".data) ∧
    (jsonParseChars ("\x7b\"x\":1\x7d".data)).isSome = true :=
  ⟨rfl, rfl, rfl, rfl⟩

/-- Claim C7: normalizing the compact short-key example yields exactly the
record from the spec (defaults everywhere else); the field chain checks
the short key first, then the long key, then the typed default; and both
key spellings of `name` normalize identically. -/
theorem claim7_schema_normalization :
    parseResumeJSON adaInput =
      .ok { name := .str "Ada", email := .str "", phone := .str "", location := .str "",
            linkedin := .str "", summary := .str "",
            experience := [{ company := .str "IBM", title := .str "", dates := .str "",
                             bullets := [{ text := .str "Did a thing", authentic := true }] }],
            skills := [], education := [] }
    ∧ (∀ v w : Json,
        pick (Json.obj [("n", v), ("name", w)]) "n" "name" (.str "") =
          (if truthy v then v else if truthy w then w else .str ""))
    ∧ resumeName (parseResumeJSON "\x7b\"name\":\"Ada\"\x7d") =
        resumeName (parseResumeJSON "\x7b\"n\":\"Ada\"\x7d") := by
  refine ⟨rfl, ?_, rfl⟩
  intro v w
  cases hv : truthy v <;> cases hw : truthy w <;>
    simp [pick, jsOr, getF, getLast, truthyO, hv, hw]

theorem contains_iff_mem (s : String) (l : List String) : l.contains s = true ↔ s ∈ l :=
  List.elem_iff

theorem contains_filter (p : String → Bool) (s : String) (l : List String) :
    (l.filter p).contains s = (l.contains s && p s) :=
  bool_eq_of_iff (by
    simp [contains_iff_mem, Bool.and_eq_true, List.mem_filter])

/-- Claim C2: every category score of the skill-gap analysis is at most
100 (it is a Nat, hence a non-negative integer), equals the half-up
rounding of 100·matched/required when the job-description requirement set
is non-empty, is 0 when that set is empty, and the formatted
`analyzeKeywords` output carries exactly these scores. -/
theorem claim2_score_bounds (jobDescription resumeText : String) (category : Category) :
    (catResults jobDescription resumeText category).score ≤ 100
    ∧ (catResults jobDescription resumeText category).score =
        (if (detectSkills (normalize jobDescription) (SKILL_GRAPH category)).length = 0 then 0
         else jsRound
           (100 * (catResults jobDescription resumeText category).matched.length)
           (detectSkills (normalize jobDescription) (SKILL_GRAPH category)).length)
    ∧ (analyzeKeywords jobDescription resumeText).hardSkills.score =
        (catResults jobDescription resumeText .hard).score
    ∧ (analyzeKeywords jobDescription resumeText).softSkills.score =
        (catResults jobDescription resumeText .soft).score
    ∧ (analyzeKeywords jobDescription resumeText).otherSkills.score =
        (catResults jobDescription resumeText .other).score := by
  refine ⟨?_, rfl, rfl, rfl, rfl⟩
  show calcScore _ _ ≤ 100
  set A := detectSkills (normalize jobDescription) (SKILL_GRAPH category) with hA
  have hm : (A.filter fun s =>
      (detectSkills (normalize resumeText) (SKILL_GRAPH category)).contains s).length
      ≤ A.length := List.length_filter_le _ _
  unfold calcScore
  by_cases ht : A.length = 0
  · simp [ht]
  · rw [if_neg ht]
    unfold jsRound
    have hpos : 0 < 2 * A.length := by omega
    have hlt : (2 * (100 * (A.filter fun s =>
        (detectSkills (normalize resumeText) (SKILL_GRAPH category)).contains s).length)
        + A.length) / (2 * A.length) < 101 := by
      rw [Nat.div_lt_iff_lt_mul hpos]
      omega
    omega

/-- Claim C3: `detectSkills` returns a skill exactly when one of its
synonym phrases has every word present in the token set (unordered
set-containment); in particular "Machine Learning" is detected whenever
the tokens "machine" and "learning" both occur, in any order. -/
theorem claim3_detect_iff :
    (∀ (tokens : List String) (vocab : List (String × List String)) (skill : String),
        skill ∈ detectSkills tokens vocab ↔
          ∃ synonyms, (skill, synonyms) ∈ vocab ∧
            ∃ synonym ∈ synonyms, ∀ word ∈ splitOnSpace synonym, word ∈ tokens)
    ∧ (∀ tokens : List String, "machine" ∈ tokens → "learning" ∈ tokens →
        "Machine Learning" ∈ detectSkills tokens (SKILL_GRAPH .hard)) := by
  have main : ∀ (tokens : List String) (vocab : List (String × List String)) (skill : String),
      skill ∈ detectSkills tokens vocab ↔
        ∃ synonyms, (skill, synonyms) ∈ vocab ∧
          ∃ synonym ∈ synonyms, ∀ word ∈ splitOnSpace synonym, word ∈ tokens := by
    intro tokens vocab skill
    unfold detectSkills
    simp only [List.mem_map, List.mem_filter, List.any_eq_true, List.all_eq_true,
      contains_iff_mem]
    constructor
    · rintro ⟨⟨sk, syns⟩, ⟨hmem, syn, hsyn, hall⟩, rfl⟩
      exact ⟨syns, hmem, syn, hsyn, hall⟩
    · rintro ⟨syns, hmem, syn, hsyn, hall⟩
      exact ⟨(skill, syns), ⟨hmem, syn, hsyn, hall⟩, rfl⟩
  refine ⟨main, fun tokens hm hl => ?_⟩
  refine (main tokens (SKILL_GRAPH .hard) "Machine Learning").mpr
    ⟨["machine learning"], by decide, "machine learning", by simp, ?_⟩
  intro w hw
  have hsplit : splitOnSpace "machine learning" = ["machine", "learning"] := rfl
  rw [hsplit] at hw
  simp only [List.mem_cons, List.not_mem_nil, or_false] at hw
  rcases hw with rfl | rfl
  · exact hm
  · exact hl

/-- Witness for C3: "Machine Learning" is detected from scattered,
out-of-order tokens. -/
theorem claim3_witness :
    "Machine Learning" ∈
      detectSkills ["intro", "learning", "then", "machine"] (SKILL_GRAPH .hard) :=
  claim3_detect_iff.2 ["intro", "learning", "then", "machine"] (by decide) (by decide)

/-- Claim C8: for every pair of texts and category, the matched and
missing lists are disjoint and their union is exactly the set of skills
detected in the job-description token set. -/
theorem claim8_matched_missing_partition (jobDescription resumeText : String)
    (category : Category) (skill : String) :
    (((catResults jobDescription resumeText category).matched.contains skill) &&
        ((catResults jobDescription resumeText category).missing.contains skill)) = false
    ∧ (((catResults jobDescription resumeText category).matched.contains skill) ||
        ((catResults jobDescription resumeText category).missing.contains skill)) =
      (detectSkills (normalize jobDescription) (SKILL_GRAPH category)).contains skill := by
  unfold catResults
  simp only []
  rw [contains_filter, contains_filter]
  constructor
  · cases hd : (detectSkills (normalize jobDescription) (SKILL_GRAPH category)).contains skill <;>
      cases hr : (detectSkills (normalize resumeText) (SKILL_GRAPH category)).contains skill <;>
      simp [hd, hr]
  · cases hd : (detectSkills (normalize jobDescription) (SKILL_GRAPH category)).contains skill <;>
      cases hr : (detectSkills (normalize resumeText) (SKILL_GRAPH category)).contains skill <;>
      simp [hd, hr]

/-- Claim C4: the classifier is a total function; a quota signal with a
per-day marker is classified DAILY_LIMIT with no retry countdown; a quota
signal without one is classified RATE_LIMIT carrying the delay extracted
from the signal (60 seconds when absent); the spec example with
`retryDelay: 30s` yields 30. -/
theorem claim4_error_classifier (msg : String) :
    ((includes msg "429" || includes msg "RESOURCE_EXHAUSTED" || includes msg "quota") = true →
      (((includes msg "PerDay" || includes msg "per_day" || includes msg "RPD") = true →
          parseGeminiError msg =
            { code := "DAILY_LIMIT",
              message := "You\x27ve used all your free Gemini requests for today. Your quota resets at midnight Pacific Time. You can also enable billing on your Google AI project for higher limits.",
              retryAfter := none })
        ∧ ((includes msg "PerDay" || includes msg "per_day" || includes msg "RPD") = false →
            (parseGeminiError msg).code = "RATE_LIMIT" ∧
              (parseGeminiError msg).retryAfter = some (extractedRetrySeconds msg))))
    ∧ (parseGeminiError "429 RESOURCE_EXHAUSTED ... retryDelay: 30s").code = "RATE_LIMIT"
    ∧ (parseGeminiError "429 RESOURCE_EXHAUSTED ... retryDelay: 30s").retryAfter = some 30 := by
  refine ⟨fun hq => ⟨fun hd => ?_, fun hd => ?_⟩, rfl, rfl⟩
  · simp [parseGeminiError, hq, hd]
  · simp [parseGeminiError, hq, hd, extractedRetrySeconds]

/-- Witness for C4 at concrete quota signals with and without a per-day
marker. -/
theorem claim4_witness :
    parseGeminiError "429 quota limitPerDay" =
      { code := "DAILY_LIMIT",
        message := "You\x27ve used all your free Gemini requests for today. Your quota resets at midnight Pacific Time. You can also enable billing on your Google AI project for higher limits.",
        retryAfter := none } ∧
    (parseGeminiError "429 quota").code = "RATE_LIMIT" ∧
    (parseGeminiError "429 quota").retryAfter = some 60 :=
  ⟨((claim4_error_classifier "429 quota limitPerDay").1 (by decide)).1 (by decide),
    (((claim4_error_classifier "429 quota").1 (by decide)).2 (by decide)).1,
    (((claim4_error_classifier "429 quota").1 (by decide)).2 (by decide)).2⟩

/-- Witness for C10 at a concrete two-session memory: a matching id
rewrites exactly that session's status; a missing id leaves the memory
unchanged with no write. -/
theorem claim10_witness :
    (updateSessionStatus memW 2 "applied").1.sessions =
      [sess1] ++ ({ sess2 with status := "applied" } :: []) ∧
    updateSessionStatus memW 99 "applied" = (memW, false) :=
  ⟨(claim10_updateSessionStatus_frame memW 2 "applied").2.2.1 [sess1] sess2 [] rfl rfl
      (by decide),
    (claim10_updateSessionStatus_frame memW 99 "applied").2.2.2 (by decide)⟩

end ResumeOS
